import Mathlib

/-!
Shallow embedding of the user CRUD service from the Go repository
(`internal/service` age calculation, `internal/validator` request validation,
`internal/test/mock_repository.go` in-memory persistence, and
`internal/handler` HTTP status mapping), together with proofs of the
specification claims about it.

Machine integers are modelled as unbounded `Int`/`Nat` with the one
overflow that the source can actually perform made explicit: the mock
repository's `nextID` is an `int32` in Go and its increment (`m.nextID++`)
wraps two's-complement at 2^31 - 1, so that increment is embedded as
`wrap32 (nextID + 1)`. Everything else (4-digit years from parsing, ages)
stays far from any machine-width boundary.
-/

namespace UserApi

/-- Calendar date as produced by Go `time.Parse("2006-01-02", s)`:
a 4-digit year together with month and day fields. -/
structure Date where
  year : Nat
  month : Nat
  day : Nat
deriving DecidableEq, Repr

/-- Leap-year rule used by Go `time`: divisible by 4 and (not by 100 or by 400). -/
def isLeapYear (y : Nat) : Bool :=
  y % 4 == 0 && (y % 100 != 0 || y % 400 == 0)

/-- Number of days in a month, as enforced by Go `time.Parse` day-range checking. -/
def daysInMonth (y : Nat) (m : Nat) : Nat :=
  if m == 2 then (if isLeapYear y then 29 else 28)
  else if m == 4 || m == 6 || m == 9 || m == 11 then 30
  else 31

def isDigitChar (c : Char) : Bool :=
  '0' ≤ c && c ≤ '9'

def digitVal (c : Char) : Nat :=
  c.toNat - '0'.toNat

/-- Embedding of Go `time.Parse("2006-01-02", s)` restricted to its calendar
fields: the string must be exactly ten characters `dddd-dd-dd` (fixed-width
numeric fields, as the layout `2006`, `01`, `02` demands), the month must lie
in 1..12 and the day in 1..daysInMonth, otherwise parsing errors. -/
def parseDate (s : String) : Option Date :=
  match s.data with
  | [y1, y2, y3, y4, h1, m1, m2, h2, d1, d2] =>
    if isDigitChar y1 && isDigitChar y2 && isDigitChar y3 && isDigitChar y4
        && h1 == '-' && isDigitChar m1 && isDigitChar m2
        && h2 == '-' && isDigitChar d1 && isDigitChar d2 then
      let year := ((digitVal y1 * 10 + digitVal y2) * 10 + digitVal y3) * 10 + digitVal y4
      let month := digitVal m1 * 10 + digitVal m2
      let day := digitVal d1 * 10 + digitVal d2
      if 1 ≤ month ∧ month ≤ 12 ∧ 1 ≤ day ∧ day ≤ daysInMonth year month then
        some ⟨year, month, day⟩
      else
        none
    else
      none
  | _ => none

/-- Chronological strict order on calendar dates (lexicographic on
year, month, day — which is the instant order for midnight instants). -/
def dateLt (a b : Date) : Prop :=
  a.year < b.year ∨ (a.year = b.year ∧
    (a.month < b.month ∨ (a.month = b.month ∧ a.day < b.day)))

instance (a b : Date) : Decidable (dateLt a b) := by
  unfold dateLt; infer_instance

theorem dateLt_irrefl (a : Date) : ¬ dateLt a a := by
  unfold dateLt; omega

theorem dateLt_asymm {a b : Date} (h : dateLt a b) : ¬ dateLt b a := by
  unfold dateLt at h ⊢; omega

/-- An absolute point in time (what Go `time.Time` compares), represented as
its UTC calendar date together with the elapsed time within that day.
`time.Parse("2006-01-02", s)` yields the instant with `timeOfDay = 0`
(midnight UTC); `time.Now()` is an arbitrary instant. -/
structure Instant where
  date : Date
  timeOfDay : Nat
deriving DecidableEq, Repr

/-- Go `a.Before(b)` on instants: strict chronological order, i.e.
lexicographic on (date, time of day). -/
def instantBefore (a b : Instant) : Prop :=
  dateLt a.date b.date ∨ (a.date = b.date ∧ a.timeOfDay < b.timeOfDay)

instance (a b : Instant) : Decidable (instantBefore a b) := by
  unfold instantBefore; infer_instance

/-- Embedding of `calculateAge` (internal/service and cmd/test/main.go):
`yearsApart := current.Year() - dob.Year()`, decremented by one when the
birthday has not yet occurred in the current year. The Go function reads
`time.Now()` internally; its calendar date is passed here as `current`. -/
def calculateAge (dob : Date) (current : Date) : Int :=
  let yearsApart : Int := (current.year : Int) - (dob.year : Int)
  if current.month < dob.month ∨ (current.month = dob.month ∧ current.day < dob.day) then
    yearsApart - 1
  else
    yearsApart

/-- Claim C1: for every dateOfBirth and reference now, the age calculation
returns `now.year - dob.year`, minus 1 exactly when `now.month < dob.month`
or (`now.month = dob.month` and `now.day < dob.day`); in particular
`age(today, today) = 0`, and the result can be 0 for a birth date other than
today within the last 12 months. -/
theorem age_formula_correct :
    (∀ dob now : Date, calculateAge dob now =
      ((now.year : Int) - (dob.year : Int)) -
        (if now.month < dob.month ∨ (now.month = dob.month ∧ now.day < dob.day)
          then 1 else 0))
    ∧ (∀ d : Date, calculateAge d d = 0)
    ∧ (∃ dob now : Date, dob ≠ now ∧ calculateAge dob now = 0) := by
  refine ⟨?_, ?_, ⟨⟨2024, 12, 1⟩, ⟨2025, 6, 15⟩, by decide, by decide⟩⟩
  · intro dob now
    unfold calculateAge
    split <;> simp
  · intro d
    unfold calculateAge
    simp

/-- Claim C10 (implicit): `calculateAge` never guards against future dates —
whenever the birth year is strictly greater than the current year, the result
is strictly negative (no clamping to 0, no error signal; the return type is a
plain integer). -/
theorem age_negative_for_future_year (dob now : Date)
    (h : now.year < dob.year) : calculateAge dob now < 0 := by
  simp only [calculateAge]
  split <;> omega

/-- Witness for C10: a concrete future birth date (2099-01-15 evaluated on
2025-06-15) yields a strictly negative age. -/
theorem age_negative_for_future_year_witness :
    calculateAge ⟨2099, 1, 15⟩ ⟨2025, 6, 15⟩ < 0 :=
  age_negative_for_future_year ⟨2099, 1, 15⟩ ⟨2025, 6, 15⟩ (by decide)

/-! ## Validation engine

`internal/validator` wraps go-playground/validator v10 and registers the
custom `dateformat` and `notfuture` rules; the request DTOs in
`internal/models` carry the tags `validate:"required,min=1,max=255"` on
`Name` and `validate:"required,dateformat,notfuture"` on `DOB`.

The library semantics embedded here: struct fields are traversed in
declaration order; a field's tags are evaluated left to right and evaluation
of that field STOPS at its first failing tag (one `FieldError` per failed
field); errors from different fields are all collected. Since no tag-name
function is registered, `FieldError.Field()` is the Go struct field name
(`Name`, `DOB`). `required` on a string fails exactly on the empty string;
`min`/`max` on a string measure its length in Unicode code points. -/

/-- Embedding of the custom rule `validateDateFormat`: the string parses
under Go layout `2006-01-02`. -/
def validateDateFormat (s : String) : Bool :=
  (parseDate s).isSome

/-- Embedding of the custom rule `validateNotFuture`: parse the string
(failing closed on a parse error) and require `dob.Before(time.Now())` —
the parsed midnight instant strictly before the current instant. -/
def validateNotFuture (now : Instant) (s : String) : Bool :=
  match parseDate s with
  | none => false
  | some d => decide (instantBefore ⟨d, 0⟩ now)

/-- Tag evaluation for one struct field: each entry is the tag's predicate
result paired with its `getErrorMessage` text; the first failing tag yields
the field's single error message (go-playground/validator stops evaluating a
field at its first failing tag). -/
def firstFailingTag : List (Bool × String) → Option String
  | [] => none
  | (ok, msg) :: rest => if ok then firstFailingTag rest else some msg

/-- Tag chain of the `Name` field (`required,min=1,max=255`) with the
messages produced by `getErrorMessage` for field name `Name`. -/
def nameTagChain (name : String) : List (Bool × String) :=
  [ (!(name == ""), "Name is required"),
    (decide (1 ≤ name.length), "Name must be at least 1 characters"),
    (decide (name.length ≤ 255), "Name must be at most 255 characters") ]

/-- Tag chain of the `DOB` field (`required,dateformat,notfuture`) with the
messages produced by `getErrorMessage` for field name `DOB`. -/
def dobTagChain (now : Instant) (dob : String) : List (Bool × String) :=
  [ (!(dob == ""), "DOB is required"),
    (validateDateFormat dob, "DOB must be in YYYY-MM-DD format"),
    (validateNotFuture now dob, "DOB cannot be in the future") ]

def nameFieldError (name : String) : Option String :=
  firstFailingTag (nameTagChain name)

def dobFieldError (now : Instant) (dob : String) : Option String :=
  firstFailingTag (dobTagChain now dob)

/-- Messages of `validator.ValidationErrors` for a request with the given
`Name` and `DOB` values, in field declaration order (Name before DOB). -/
def validationMessages (now : Instant) (name dob : String) : List String :=
  (nameFieldError name).toList ++ (dobFieldError now dob).toList

/-- Embedding of `models.CreateUserRequest`. -/
structure CreateUserRequest where
  name : String
  dob : String
deriving DecidableEq, Repr

/-- Embedding of `models.UpdateUserRequest` (same fields and tags as the
create DTO, declared separately in the source). -/
structure UpdateUserRequest where
  name : String
  dob : String
deriving DecidableEq, Repr

/-- Embedding of `Validator.ValidateStruct` on a create request: `none` when
the struct validates, otherwise the violation messages joined with "; "
(`formatValidationErrors`). -/
def validateStruct (now : Instant) (req : CreateUserRequest) : Option String :=
  match validationMessages now req.name req.dob with
  | [] => none
  | msgs => some (String.intercalate "; " msgs)

/-- Embedding of `Validator.ValidateStruct` on an update request. -/
def validateStructUpd (now : Instant) (req : UpdateUserRequest) : Option String :=
  match validationMessages now req.name req.dob with
  | [] => none
  | msgs => some (String.intercalate "; " msgs)

theorem parseDate_empty : parseDate "" = none := rfl

theorem ne_empty_of_parseDate_some {s : String} {d : Date}
    (h : parseDate s = some d) : s ≠ "" := by
  intro hs
  rw [hs, parseDate_empty] at h
  exact Option.noConfusion h

theorem one_le_length_of_ne_empty (s : String) (h : s ≠ "") : 1 ≤ s.length := by
  cases s with
  | mk l =>
    cases l with
    | nil => exact absurd rfl h
    | cons c cs => simp [String.length]

theorem validateNotFuture_of_parse {s : String} {d : Date} (now : Instant)
    (hp : parseDate s = some d) :
    validateNotFuture now s = decide (instantBefore ⟨d, 0⟩ now) := by
  unfold validateNotFuture
  rw [hp]

theorem nameFieldError_eq_none (name : String) (h1 : name ≠ "")
    (h2 : name.length ≤ 255) : nameFieldError name = none := by
  have hb : (name == "") = false := beq_eq_false_iff_ne.mpr h1
  have hl : 1 ≤ name.length := one_le_length_of_ne_empty name h1
  simp [nameFieldError, nameTagChain, firstFailingTag, hb, hl, h2]

theorem dobFieldError_eq_none_iff (now : Instant) (dob : String) :
    dobFieldError now dob = none ↔
      ((dob == "") = false ∧ validateDateFormat dob = true
        ∧ validateNotFuture now dob = true) := by
  unfold dobFieldError dobTagChain
  rcases h1 : (dob == "") <;> rcases h2 : validateDateFormat dob
    <;> rcases h3 : validateNotFuture now dob
    <;> simp [firstFailingTag, h1, h2, h3]

theorem validateStruct_eq_none_iff (now : Instant) (req : CreateUserRequest) :
    validateStruct now req = none ↔
      validationMessages now req.name req.dob = [] := by
  unfold validateStruct
  cases h : validationMessages now req.name req.dob <;> simp

theorem validateStruct_of_dob_msg (now : Instant) (req : CreateUserRequest)
    {m : String} (h : dobFieldError now req.dob = some m) :
    validateStruct now req ≠ none := by
  intro hcon
  have hmsgs := (validateStruct_eq_none_iff now req).mp hcon
  unfold validationMessages at hmsgs
  rw [h] at hmsgs
  simp at hmsgs

/-- Claim C2 (amended): a parsed dateOfBirth denoting a calendar date
strictly AFTER the current date is rejected with the future-date message and
the request fails validation; conversely an accepted dateOfBirth denotes a
date on or before the current date. A dateOfBirth EQUAL to the current date
is accepted whenever the evaluation instant is past midnight, because
`validateNotFuture` compares the parsed midnight instant against the current
instant with `Before`, not the two calendar dates. -/
theorem notFuture_validation (now : Instant) (req : CreateUserRequest) (d : Date)
    (hp : parseDate req.dob = some d) :
    (dateLt now.date d →
      dobFieldError now req.dob = some "DOB cannot be in the future"
      ∧ validateStruct now req ≠ none)
    ∧ (validateStruct now req = none → ¬ dateLt now.date d)
    ∧ (d = now.date → 0 < now.timeOfDay → validateNotFuture now req.dob = true) := by
  have hne : req.dob ≠ "" := ne_empty_of_parseDate_some hp
  have hb : (req.dob == "") = false := beq_eq_false_iff_ne.mpr hne
  have hfmt : validateDateFormat req.dob = true := by
    unfold validateDateFormat; rw [hp]; rfl
  have hnf := validateNotFuture_of_parse now hp
  refine ⟨?_, ?_, ?_⟩
  · intro hlt
    have hbefore : ¬ instantBefore ⟨d, 0⟩ now := by
      unfold instantBefore
      rintro (h | ⟨h, _⟩)
      · exact dateLt_asymm hlt h
      · have h2 : d = now.date := h
        rw [h2] at hlt
        exact dateLt_irrefl now.date hlt
    have hfalse : validateNotFuture now req.dob = false := by
      rw [hnf]; exact decide_eq_false hbefore
    have hmsg : dobFieldError now req.dob = some "DOB cannot be in the future" := by
      simp [dobFieldError, dobTagChain, firstFailingTag, hb, hfmt, hfalse]
    exact ⟨hmsg, validateStruct_of_dob_msg now req hmsg⟩
  · intro hok
    have hmsgs := (validateStruct_eq_none_iff now req).mp hok
    have hdob : dobFieldError now req.dob = none := by
      unfold validationMessages at hmsgs
      rcases List.append_eq_nil.mp hmsgs with ⟨_, h2⟩
      cases h : dobFieldError now req.dob with
      | none => rfl
      | some m => rw [h] at h2; simp at h2
    have htrue := ((dobFieldError_eq_none_iff now req.dob).mp hdob).2.2
    rw [hnf] at htrue
    have hbefore : instantBefore ⟨d, 0⟩ now := of_decide_eq_true htrue
    unfold instantBefore at hbefore
    rintro hlt
    rcases hbefore with h | ⟨h, _⟩
    · exact dateLt_asymm hlt h
    · have h2 : d = now.date := h
      rw [h2] at hlt
      exact dateLt_irrefl now.date hlt
  · intro heq hpos
    rw [hnf]
    apply decide_eq_true
    unfold instantBefore
    exact Or.inr ⟨heq, hpos⟩

/-- Witness for C2: at evaluation instant 2025-06-15 noon, the strictly
future date 2026-01-01 triggers the future-date message. -/
theorem notFuture_validation_witness :
    dobFieldError ⟨⟨2025, 6, 15⟩, 43200⟩ "2026-01-01"
      = some "DOB cannot be in the future" :=
  ((notFuture_validation ⟨⟨2025, 6, 15⟩, 43200⟩ ⟨"John Doe", "2026-01-01"⟩
      ⟨2026, 1, 1⟩ (by decide)).1 (by decide)).1

/-- Counterexample to C2 as stated: a dateOfBirth string denoting a date
EQUAL to the current date (2025-06-15, evaluated at noon of that day) parses
and is accepted — validation succeeds, although the claim requires a
ValidationFailed outcome with the future-date message. -/
theorem today_dob_accepted_counterexample :
    parseDate "2025-06-15" = some ⟨2025, 6, 15⟩
    ∧ validateStruct ⟨⟨2025, 6, 15⟩, 43200⟩ ⟨"John Doe", "2025-06-15"⟩ = none := by
  decide

/-- Claim C3 (amended): a non-empty dateOfBirth that does not parse under
YYYY-MM-DD fails validation carrying the format message only; the
`validateNotFuture` predicate itself does fail closed (it returns false on a
parse error), but its message never surfaces because the library stops
evaluating a field's tags at the first failure. -/
theorem unparseable_dob_fails_format_only (now : Instant) (req : CreateUserRequest)
    (hne : req.dob ≠ "") (hp : parseDate req.dob = none) :
    dobFieldError now req.dob = some "DOB must be in YYYY-MM-DD format"
    ∧ validateNotFuture now req.dob = false
    ∧ validateStruct now req ≠ none := by
  have hb : (req.dob == "") = false := beq_eq_false_iff_ne.mpr hne
  have hfmt : validateDateFormat req.dob = false := by
    unfold validateDateFormat; rw [hp]; rfl
  have hmsg : dobFieldError now req.dob = some "DOB must be in YYYY-MM-DD format" := by
    simp [dobFieldError, dobTagChain, firstFailingTag, hb, hfmt]
  refine ⟨hmsg, ?_, validateStruct_of_dob_msg now req hmsg⟩
  unfold validateNotFuture
  rw [hp]

/-- Witness for C3: the malformed date "01-15-1990" yields exactly the
format message for the DOB field. -/
theorem unparseable_dob_witness :
    dobFieldError ⟨⟨2025, 6, 15⟩, 43200⟩ "01-15-1990"
      = some "DOB must be in YYYY-MM-DD format" :=
  (unparseable_dob_fails_format_only ⟨⟨2025, 6, 15⟩, 43200⟩
      ⟨"John Doe", "01-15-1990"⟩ (by decide) (by decide)).1

/-- Counterexample to C3 as stated: for the unparseable dateOfBirth
"01-15-1990" the resulting error signal consists of the format message
alone — the not-future message (in either the code's spelling or the
spec's) does not appear, although the claim requires both messages. -/
theorem unparseable_dob_counterexample :
    validationMessages ⟨⟨2025, 6, 15⟩, 43200⟩ "John Doe" "01-15-1990"
        = ["DOB must be in YYYY-MM-DD format"]
    ∧ "DOB cannot be in the future"
        ∉ validationMessages ⟨⟨2025, 6, 15⟩, 43200⟩ "John Doe" "01-15-1990"
    ∧ "dateOfBirth cannot be in the future"
        ∉ validationMessages ⟨⟨2025, 6, 15⟩, 43200⟩ "John Doe" "01-15-1990" := by
  decide

/-- Claim C4 (amended): violations are collected across fields — name field
first, then dateOfBirth, joined with "; " — but within one field only the
FIRST failing rule's message is reported (the library stops at a field's
first failing tag), and the messages carry the Go struct field names, e.g.
"Name is required", "DOB must be in YYYY-MM-DD format",
"DOB cannot be in the future". -/
theorem validation_message_table (now : Instant) (req : CreateUserRequest) :
    (validationMessages now req.name req.dob
        = (nameFieldError req.name).toList ++ (dobFieldError now req.dob).toList)
    ∧ (req.name = "" → nameFieldError req.name = some "Name is required")
    ∧ (req.name ≠ "" → req.name.length ≤ 255 → nameFieldError req.name = none)
    ∧ (req.name ≠ "" → 255 < req.name.length →
        nameFieldError req.name = some "Name must be at most 255 characters")
    ∧ (req.dob = "" → dobFieldError now req.dob = some "DOB is required")
    ∧ (req.dob ≠ "" → parseDate req.dob = none →
        dobFieldError now req.dob = some "DOB must be in YYYY-MM-DD format")
    ∧ (req.dob ≠ "" → (parseDate req.dob).isSome = true →
        validateNotFuture now req.dob = false →
        dobFieldError now req.dob = some "DOB cannot be in the future")
    ∧ (validationMessages now req.name req.dob ≠ [] →
        validateStruct now req
          = some (String.intercalate "; " (validationMessages now req.name req.dob))) := by
  refine ⟨rfl, ?_, ?_, ?_, ?_, ?_, ?_, ?_⟩
  · intro h
    simp [nameFieldError, nameTagChain, firstFailingTag, h]
  · intro h1 h2
    exact nameFieldError_eq_none req.name h1 h2
  · intro h1 h2
    have hb : (req.name == "") = false := beq_eq_false_iff_ne.mpr h1
    have hl : 1 ≤ req.name.length := one_le_length_of_ne_empty req.name h1
    simp [nameFieldError, nameTagChain, firstFailingTag, hb, hl]
    omega
  · intro h
    simp [dobFieldError, dobTagChain, firstFailingTag, h]
  · intro h1 h2
    have hb : (req.dob == "") = false := beq_eq_false_iff_ne.mpr h1
    have hfmt : validateDateFormat req.dob = false := by
      unfold validateDateFormat; rw [h2]; rfl
    simp [dobFieldError, dobTagChain, firstFailingTag, hb, hfmt]
  · intro h1 h2 h3
    have hb : (req.dob == "") = false := beq_eq_false_iff_ne.mpr h1
    simp [dobFieldError, dobTagChain, firstFailingTag, hb, validateDateFormat, h2, h3]
  · intro h
    unfold validateStruct
    cases hm : validationMessages now req.name req.dob with
    | nil => exact absurd hm h
    | cons m ms => simp

/-- Witness for C4: for the request with empty name and malformed
dateOfBirth, the joined error signal is produced from the per-field first
failures in field order. -/
theorem validation_message_table_witness :
    validateStruct ⟨⟨2025, 6, 15⟩, 43200⟩ ⟨"", "01-15-1990"⟩
      = some (String.intercalate "; "
          (validationMessages ⟨⟨2025, 6, 15⟩, 43200⟩ "" "01-15-1990")) :=
  (validation_message_table ⟨⟨2025, 6, 15⟩, 43200⟩
      ⟨"", "01-15-1990"⟩).2.2.2.2.2.2.2 (by decide)

/-- Counterexample to C4 as stated: at the request (name = "",
dob = "01-15-1990") the error signal is
"Name is required; DOB must be in YYYY-MM-DD format" — the rule-table
message "name is required" claimed by the spec appears nowhere (the code
uses the Go struct field names `Name`/`DOB`). -/
theorem validation_message_table_counterexample :
    validateStruct ⟨⟨2025, 6, 15⟩, 43200⟩ ⟨"", "01-15-1990"⟩
        = some "Name is required; DOB must be in YYYY-MM-DD format"
    ∧ "name is required"
        ∉ validationMessages ⟨⟨2025, 6, 15⟩, 43200⟩ "" "01-15-1990"
    ∧ "dateOfBirth must be in YYYY-MM-DD format"
        ∉ validationMessages ⟨⟨2025, 6, 15⟩, 43200⟩ "" "01-15-1990" := by
  decide

/-! ## In-memory persistence (internal/test/mock_repository.go)

`MockUserRepository` guards a `map[int32]*database.User` with a RW mutex;
the claims here are about its sequential semantics, so the map is embedded
directly (locking is the serialization discipline, invisible to the
per-operation input/output behaviour). -/

/-- Embedding of the sqlc row `database.User`: id, name, dob (a `date`
column, so no time-of-day component). -/
structure User where
  id : Int
  name : String
  dob : Date
deriving DecidableEq, Repr

/-- Smallest `int32` value. -/
def int32Min : Int := -2147483648

/-- Largest `int32` value. -/
def int32Max : Int := 2147483647

/-- Two's-complement wrap of an integer into the `int32` range, the
semantics of Go `int32` arithmetic (signed overflow wraps). -/
def wrap32 (x : Int) : Int :=
  (x + 2147483648) % 4294967296 - 2147483648

theorem wrap32_bounds (x : Int) :
    int32Min ≤ wrap32 x ∧ wrap32 x ≤ int32Max := by
  unfold wrap32 int32Min int32Max
  omega

theorem wrap32_eq_self {x : Int} (h1 : int32Min ≤ x) (h2 : x ≤ int32Max) :
    wrap32 x = x := by
  unfold wrap32
  unfold int32Min at h1
  unfold int32Max at h2
  omega

theorem wrap32_idem (x : Int) : wrap32 (wrap32 x) = wrap32 x :=
  wrap32_eq_self (wrap32_bounds x).1 (wrap32_bounds x).2

theorem wrap32_add_left (x y : Int) :
    wrap32 (wrap32 x + y) = wrap32 (x + y) := by
  unfold wrap32
  omega

/-- Embedding of `MockUserRepository`: the map keyed by `int32` id, the
`int32` id counter (kept as an `Int` carrying the wrapped value), and the
induced-failure flag. -/
structure MockRepo where
  users : Int → Option User
  nextID : Int
  shouldFail : Bool

/-- Embedding of `NewMockUserRepository`: empty map, counter starting at 1,
failures off. -/
def initialRepo : MockRepo :=
  ⟨fun _ => none, 1, false⟩

/-- Embedding of `MockUserRepository.GetUser`. -/
def mockGetUser (m : MockRepo) (id : Int) : Except String User :=
  if m.shouldFail then Except.error "mock database error"
  else
    match m.users id with
    | none => Except.error "user not found"
    | some u => Except.ok u

/-- Embedding of `MockUserRepository.CreateUser`: store a fresh record under
`nextID`, then increment the counter — the Go increment is on an `int32`, so
it wraps two's-complement. -/
def mockCreateUser (m : MockRepo) (name : String) (dob : Date) :
    Except String User × MockRepo :=
  if m.shouldFail then (Except.error "mock database error", m)
  else
    (Except.ok ⟨m.nextID, name, dob⟩,
      { m with
          users := fun i =>
            if i = m.nextID then some ⟨m.nextID, name, dob⟩ else m.users i,
          nextID := wrap32 (m.nextID + 1) })

/-- Embedding of `MockUserRepository.UpdateUser`: overwrite name and dob of
an existing record (its id is untouched), not-found error otherwise. -/
def mockUpdateUser (m : MockRepo) (id : Int) (name : String) (dob : Date) :
    Except String User × MockRepo :=
  if m.shouldFail then (Except.error "mock database error", m)
  else
    match m.users id with
    | none => (Except.error "user not found", m)
    | some u =>
      (Except.ok { u with name := name, dob := dob },
        { m with
            users := fun i =>
              if i = id then some { u with name := name, dob := dob }
              else m.users i })

/-- Embedding of `MockUserRepository.DeleteUser`: remove an existing record,
not-found error otherwise. -/
def mockDeleteUser (m : MockRepo) (id : Int) : Except String Unit × MockRepo :=
  if m.shouldFail then (Except.error "mock database error", m)
  else
    match m.users id with
    | none => (Except.error "user not found", m)
    | some _ =>
      (Except.ok (), { m with users := fun i => if i = id then none else m.users i })

/-- Embedding of `models.UserResponse` (id, name, dob and the derived,
never-stored age). -/
structure UserResponse where
  id : Int
  name : String
  dob : Date
  age : Int
deriving DecidableEq, Repr

/-- Response construction shared by the service operations: the age is
recomputed from the stored dob and the current date (`calculateAge` reads
`time.Now()`; its calendar date is `now.date`). -/
def toUserResponse (now : Instant) (u : User) : UserResponse :=
  ⟨u.id, u.name, u.dob, calculateAge u.dob now.date⟩

/-- Embedding of `UserService.GetUser` over the mock repository. -/
def serviceGetUser (now : Instant) (m : MockRepo) (id : Int) :
    Except String UserResponse :=
  match mockGetUser m id with
  | Except.error e => Except.error e
  | Except.ok u => Except.ok (toUserResponse now u)

/-- Embedding of `UserService.CreateUser` over the mock repository. -/
def serviceCreateUser (now : Instant) (m : MockRepo) (name : String) (dob : Date) :
    Except String UserResponse × MockRepo :=
  match mockCreateUser m name dob with
  | (Except.error e, m2) => (Except.error e, m2)
  | (Except.ok u, m2) => (Except.ok (toUserResponse now u), m2)

/-- Embedding of `UserService.UpdateUser` over the mock repository. -/
def serviceUpdateUser (now : Instant) (m : MockRepo) (id : Int)
    (name : String) (dob : Date) : Except String UserResponse × MockRepo :=
  match mockUpdateUser m id name dob with
  | (Except.error e, m2) => (Except.error e, m2)
  | (Except.ok u, m2) => (Except.ok (toUserResponse now u), m2)

/-- Embedding of `UserService.DeleteUser` over the mock repository (the
error is re-signalled unchanged; the log record is a side channel outside
the return contract). -/
def serviceDeleteUser (m : MockRepo) (id : Int) : Except String Unit × MockRepo :=
  mockDeleteUser m id

/-! ## HTTP handler layer (internal/handler/user_handler.go)

Status code and the short "error" message of each response. Success
responses serialize the domain object; only the status and error message
matter to the claims, so a success carries an empty message here. The
malformed-path-parameter and malformed-body branches (both 400) are before
the modelled pipeline and are elided. -/

structure HttpResponse where
  status : Nat
  message : String
deriving DecidableEq, Repr

/-- Embedding of `UserHandler.GetUser`: any service error becomes
404 "user not found"; success is 200. -/
def getUserHandler (now : Instant) (m : MockRepo) (id : Int) : HttpResponse :=
  match serviceGetUser now m id with
  | Except.error _ => ⟨404, "user not found"⟩
  | Except.ok _ => ⟨200, ""⟩

/-- Embedding of `UserHandler.CreateUser`: validation failure is 400 with
the joined messages; an unparseable dob after validation is 400; a service
error is 500 "failed to create user"; success is 200. -/
def createUserHandler (now : Instant) (m : MockRepo) (req : CreateUserRequest) :
    HttpResponse × MockRepo :=
  match validateStruct now req with
  | some e => (⟨400, e⟩, m)
  | none =>
    match parseDate req.dob with
    | none => (⟨400, "invalid date format (Use YYYY-MM-DD)"⟩, m)
    | some dob =>
      match serviceCreateUser now m req.name dob with
      | (Except.error _, m2) => (⟨500, "failed to create user"⟩, m2)
      | (Except.ok _, m2) => (⟨200, ""⟩, m2)

/-- Embedding of `UserHandler.UpdateUser`: validation failure is 400; any
service error — a non-existent id included — is 500 "failed to update
user"; success is 200. -/
def updateUserHandler (now : Instant) (m : MockRepo) (id : Int)
    (req : UpdateUserRequest) : HttpResponse × MockRepo :=
  match validateStructUpd now req with
  | some e => (⟨400, e⟩, m)
  | none =>
    match parseDate req.dob with
    | none => (⟨400, "invalid data format (use YYYY-MM-DD)"⟩, m)
    | some dob =>
      match serviceUpdateUser now m id req.name dob with
      | (Except.error _, m2) => (⟨500, "failed to update user"⟩, m2)
      | (Except.ok _, m2) => (⟨200, ""⟩, m2)

/-- Embedding of `UserHandler.DeleteUser`: any service error — a
non-existent id included — is 500 "failed to delete user"; success sends
204. -/
def deleteUserHandler (m : MockRepo) (id : Int) : HttpResponse × MockRepo :=
  match serviceDeleteUser m id with
  | (Except.error _, m2) => (⟨500, "failed to delete user"⟩, m2)
  | (Except.ok _, m2) => (⟨204, ""⟩, m2)

/-! ## Reachable repository states -/

/-- A mutating call on the mock repository (reads do not change state). -/
inductive RepoOp where
  | create (name : String) (dob : Date)
  | update (id : Int) (name : String) (dob : Date)
  | delete (id : Int)
  | setFail (b : Bool)

/-- State left behind by one mutating call. -/
def applyOp (m : MockRepo) : RepoOp → MockRepo
  | RepoOp.create name dob => (mockCreateUser m name dob).2
  | RepoOp.update id name dob => (mockUpdateUser m id name dob).2
  | RepoOp.delete id => (mockDeleteUser m id).2
  | RepoOp.setFail b => { m with shouldFail := b }

/-- State of the mock repository after a sequence of mutating calls on a
fresh `NewMockUserRepository`. -/
def runOps (ops : List RepoOp) : MockRepo :=
  ops.foldl applyOp initialRepo

/-- Structural invariant of the mock repository while the `int32` counter
has not wrapped: the counter is at least 1 and still in `int32` range, and
every stored record carries its own key as id, positive and strictly below
the counter (so keys are unique, ids are positive, and the next assigned id
is fresh — also fresh with respect to every previously deleted record,
since the counter does not decrease before wrapping). -/
def goodRepo (m : MockRepo) : Prop :=
  1 ≤ m.nextID ∧ m.nextID ≤ int32Max ∧
    ∀ id u, m.users id = some u → u.id = id ∧ 1 ≤ id ∧ id < m.nextID

theorem goodRepo_initial : goodRepo initialRepo := by
  refine ⟨le_refl 1, ?_, fun _ _ h => Option.noConfusion h⟩
  show (1 : Int) ≤ int32Max
  unfold int32Max
  omega

theorem goodRepo_applyOp {m : MockRepo} (hm : goodRepo m) (op : RepoOp)
    (hcap : ∀ name dob, op = RepoOp.create name dob → m.nextID < int32Max) :
    goodRepo (applyOp m op) := by
  obtain ⟨h1, hmax, h2⟩ := hm
  cases op with
  | create name dob =>
    have hlt : m.nextID < int32Max := hcap name dob rfl
    cases hf : m.shouldFail with
    | true =>
      simp only [applyOp, mockCreateUser, hf, if_true]
      exact ⟨h1, hmax, h2⟩
    | false =>
      simp only [applyOp, mockCreateUser, hf, Bool.false_eq_true, if_false]
      have hw : wrap32 (m.nextID + 1) = m.nextID + 1 :=
        wrap32_eq_self (by unfold int32Min; omega) (by omega)
      rw [hw]
      refine ⟨?_, ?_, ?_⟩
      · show 1 ≤ m.nextID + 1
        omega
      · show m.nextID + 1 ≤ int32Max
        omega
      · intro id u h
        by_cases hid : id = m.nextID
        · subst hid
          simp at h
          subst h
          refine ⟨rfl, ?_, ?_⟩
          · omega
          · show m.nextID < m.nextID + 1
            omega
        · simp [hid] at h
          have := h2 id u h
          refine ⟨this.1, this.2.1, ?_⟩
          show id < m.nextID + 1
          omega
  | update id name dob =>
    cases hf : m.shouldFail with
    | true =>
      simp only [applyOp, mockUpdateUser, hf, if_true]
      exact ⟨h1, hmax, h2⟩
    | false =>
      simp only [applyOp, mockUpdateUser, hf, Bool.false_eq_true, if_false]
      cases hu : m.users id with
      | none => exact ⟨h1, hmax, h2⟩
      | some u0 =>
        refine ⟨h1, hmax, ?_⟩
        intro id2 u h
        by_cases hid : id2 = id
        · subst hid
          simp at h
          subst h
          have := h2 id2 u0 hu
          exact ⟨this.1, this.2.1, this.2.2⟩
        · simp [hid] at h
          exact h2 id2 u h
  | delete id =>
    cases hf : m.shouldFail with
    | true =>
      simp only [applyOp, mockDeleteUser, hf, if_true]
      exact ⟨h1, hmax, h2⟩
    | false =>
      simp only [applyOp, mockDeleteUser, hf, Bool.false_eq_true, if_false]
      cases hu : m.users id with
      | none => exact ⟨h1, hmax, h2⟩
      | some u0 =>
        refine ⟨h1, hmax, ?_⟩
        intro id2 u h
        by_cases hid : id2 = id
        · subst hid
          simp at h
        · simp [hid] at h
          exact h2 id2 u h
  | setFail b =>
    exact ⟨h1, hmax, h2⟩

/-- Number of create calls in a sequence of repository operations. -/
def countCreates : List RepoOp → Nat
  | [] => 0
  | RepoOp.create _ _ :: rest => countCreates rest + 1
  | RepoOp.update _ _ _ :: rest => countCreates rest
  | RepoOp.delete _ :: rest => countCreates rest
  | RepoOp.setFail _ :: rest => countCreates rest

theorem goodRepo_foldl_cap :
    ∀ (ops : List RepoOp) (m : MockRepo), goodRepo m →
      m.nextID + (countCreates ops : Int) ≤ int32Max →
      goodRepo (ops.foldl applyOp m) := by
  intro ops
  induction ops with
  | nil =>
    intro m hm _
    exact hm
  | cons op rest ih =>
    intro m hm hcap
    rw [List.foldl_cons]
    cases op with
    | create name dob =>
      have hcount : (countCreates (RepoOp.create name dob :: rest) : Int)
          = (countCreates rest : Int) + 1 := by
        simp [countCreates]
      rw [hcount] at hcap
      have hnn : (0 : Int) ≤ (countCreates rest : Int) := Int.natCast_nonneg _
      have hlt : m.nextID < int32Max := by omega
      have hgood := goodRepo_applyOp hm (RepoOp.create name dob)
        (fun _ _ _ => hlt)
      refine ih _ hgood ?_
      have hle : (applyOp m (RepoOp.create name dob)).nextID ≤ m.nextID + 1 := by
        cases hf : m.shouldFail with
        | true =>
          have hsame : applyOp m (RepoOp.create name dob) = m := by
            simp [applyOp, mockCreateUser, hf]
          rw [hsame]
          omega
        | false =>
          have h1 := hm.1
          have hw : wrap32 (m.nextID + 1) = m.nextID + 1 :=
            wrap32_eq_self (by unfold int32Min; omega) (by omega)
          have hnext : (applyOp m (RepoOp.create name dob)).nextID = m.nextID + 1 := by
            simp [applyOp, mockCreateUser, hf, hw]
          rw [hnext]
      omega
    | update id name dob =>
      have hnext : (applyOp m (RepoOp.update id name dob)).nextID = m.nextID := by
        cases hf : m.shouldFail with
        | true => simp [applyOp, mockUpdateUser, hf]
        | false =>
          cases hu : m.users id with
          | none => simp [applyOp, mockUpdateUser, hf, hu]
          | some u0 => simp [applyOp, mockUpdateUser, hf, hu]
      have hgood := goodRepo_applyOp hm (RepoOp.update id name dob)
        (by intro n d h; cases h)
      refine ih _ hgood ?_
      rw [hnext]
      exact hcap
    | delete id =>
      have hnext : (applyOp m (RepoOp.delete id)).nextID = m.nextID := by
        cases hf : m.shouldFail with
        | true => simp [applyOp, mockDeleteUser, hf]
        | false =>
          cases hu : m.users id with
          | none => simp [applyOp, mockDeleteUser, hf, hu]
          | some u0 => simp [applyOp, mockDeleteUser, hf, hu]
      have hgood := goodRepo_applyOp hm (RepoOp.delete id)
        (by intro n d h; cases h)
      refine ih _ hgood ?_
      rw [hnext]
      exact hcap
    | setFail b =>
      have hgood := goodRepo_applyOp hm (RepoOp.setFail b)
        (by intro n d h; cases h)
      refine ih _ hgood ?_
      exact hcap

/-- Counter value after a run of create calls on a non-failing repository:
each create wraps the incremented `int32` counter, so after `n` creates the
counter is the 32-bit wrap of the start value plus `n`. -/
theorem creates_foldl_nextID (name : String) (dob : Date) :
    ∀ (n : Nat) (m : MockRepo), m.shouldFail = false →
      wrap32 m.nextID = m.nextID →
      ((List.replicate n (RepoOp.create name dob)).foldl applyOp m).nextID
          = wrap32 (m.nextID + n)
      ∧ ((List.replicate n (RepoOp.create name dob)).foldl applyOp m).shouldFail
          = false := by
  intro n
  induction n with
  | zero =>
    intro m hf hw
    constructor
    · simpa using hw.symm
    · simpa using hf
  | succ n ih =>
    intro m hf hw
    rw [List.replicate_succ, List.foldl_cons]
    have happ : applyOp m (RepoOp.create name dob)
        = { m with
            users := fun i =>
              if i = m.nextID then some ⟨m.nextID, name, dob⟩ else m.users i,
            nextID := wrap32 (m.nextID + 1) } := by
      simp [applyOp, mockCreateUser, hf]
    rw [happ]
    have hres := ih
      { m with
          users := fun i =>
            if i = m.nextID then some ⟨m.nextID, name, dob⟩ else m.users i,
          nextID := wrap32 (m.nextID + 1) }
      hf (wrap32_idem _)
    refine ⟨?_, hres.2⟩
    rw [hres.1]
    show wrap32 (wrap32 (m.nextID + 1) + (n : Int)) = wrap32 (m.nextID + ((n + 1 : Nat) : Int))
    rw [wrap32_add_left]
    congr 1
    push_cast
    ring

/-- Claim C9 (amended): the source counter is an `int32` that wraps
two's-complement. (a) The fresh repository's counter is 1; (b) for any
run with at most 2^31 - 2 creates, every reachable state satisfies the
structural invariant (stored records carry their own positive key as id,
strictly below the counter, hence unique, and never a reused id); (c) a
successful create below the wrap point returns the record with id `nextID`,
bumps the counter by one, and that id was not in use; (d) below the wrap
point no operation decreases the counter; (e) a successful update returns a
record whose id is exactly the targeted id and leaves the counter alone (id
is immutable). At the 2^31-th create the counter wraps to -2^31 and the
monotonicity and positivity guarantees fail (see the counterexample). -/
theorem id_assignment_invariants :
    initialRepo.nextID = 1
    ∧ (∀ ops : List RepoOp, 1 + (countCreates ops : Int) ≤ int32Max →
        goodRepo (runOps ops))
    ∧ (∀ (m : MockRepo) (name : String) (dob : Date),
        m.shouldFail = false → goodRepo m → m.nextID < int32Max →
        (mockCreateUser m name dob).1 = Except.ok ⟨m.nextID, name, dob⟩
        ∧ (mockCreateUser m name dob).2.nextID = m.nextID + 1
        ∧ 1 ≤ m.nextID
        ∧ m.users m.nextID = none)
    ∧ (∀ (m : MockRepo) (op : RepoOp),
        1 ≤ m.nextID → m.nextID < int32Max → m.nextID ≤ (applyOp m op).nextID)
    ∧ (∀ (m : MockRepo) (id : Int) (name : String) (dob : Date) (u : User),
        goodRepo m → (mockUpdateUser m id name dob).1 = Except.ok u →
        u.id = id ∧ (mockUpdateUser m id name dob).2.nextID = m.nextID) := by
  refine ⟨rfl, ?_, ?_, ?_, ?_⟩
  · intro ops hcap
    exact goodRepo_foldl_cap ops initialRepo goodRepo_initial hcap
  · intro m name dob hf hm hlt
    obtain ⟨h1, hmax, h2⟩ := hm
    have hw : wrap32 (m.nextID + 1) = m.nextID + 1 :=
      wrap32_eq_self (by unfold int32Min; omega) (by omega)
    refine ⟨?_, ?_, h1, ?_⟩
    · simp [mockCreateUser, hf]
    · simp [mockCreateUser, hf, hw]
    · cases hu : m.users m.nextID with
      | none => rfl
      | some u =>
        have := h2 m.nextID u hu
        omega
  · intro m op h1 hlt
    cases op with
    | create name dob =>
      cases hf : m.shouldFail with
      | true =>
        have hsame : applyOp m (RepoOp.create name dob) = m := by
          simp [applyOp, mockCreateUser, hf]
        rw [hsame]
      | false =>
        have hw : wrap32 (m.nextID + 1) = m.nextID + 1 :=
          wrap32_eq_self (by unfold int32Min; omega) (by omega)
        have hnext : (applyOp m (RepoOp.create name dob)).nextID = m.nextID + 1 := by
          simp [applyOp, mockCreateUser, hf, hw]
        rw [hnext]
        omega
    | update id name dob =>
      cases hf : m.shouldFail
      · cases hu : m.users id <;>
          simp [applyOp, mockUpdateUser, hf, hu]
      · simp [applyOp, mockUpdateUser, hf]
    | delete id =>
      cases hf : m.shouldFail
      · cases hu : m.users id <;>
          simp [applyOp, mockDeleteUser, hf, hu]
      · simp [applyOp, mockDeleteUser, hf]
    | setFail b => exact le_refl _
  · intro m id name dob u hm hu
    obtain ⟨h1, hmax, h2⟩ := hm
    cases hf : m.shouldFail with
    | true =>
      rw [mockUpdateUser, hf] at hu
      simp at hu
    | false =>
      rw [mockUpdateUser, hf] at hu
      cases hrec : m.users id with
      | none =>
        rw [hrec] at hu
        simp at hu
      | some u0 =>
        rw [hrec] at hu
        simp at hu
        constructor
        · rw [← hu]
          exact (h2 id u0 hrec).1
        · simp [mockUpdateUser, hf, hrec]

/-- Witness for C9: creating on the fresh repository assigns id 1. -/
theorem id_assignment_invariants_witness :
    (mockCreateUser initialRepo "John Doe" ⟨1990, 1, 15⟩).1
      = Except.ok ⟨1, "John Doe", ⟨1990, 1, 15⟩⟩ :=
  (id_assignment_invariants.2.2.1 initialRepo "John Doe" ⟨1990, 1, 15⟩
      rfl goodRepo_initial (by decide)).1

/-- Counterexample to C9 as stated: the `int32` counter wraps. After
2^31 - 1 successful creates on the fresh repository the counter is
-2147483648 — strictly below the 2147483647 it held one create earlier, so
the counter is not monotonically increasing — and the next create returns a
record with the NEGATIVE id -2147483648, refuting "every created record has
a unique positive id". -/
theorem id_wrap_counterexample :
    (runOps (List.replicate 2147483647
        (RepoOp.create "John Doe" ⟨1990, 1, 15⟩))).nextID = -2147483648
    ∧ (mockCreateUser
          (runOps (List.replicate 2147483647
            (RepoOp.create "John Doe" ⟨1990, 1, 15⟩)))
          "John Doe" ⟨1990, 1, 15⟩).1
        = Except.ok ⟨-2147483648, "John Doe", ⟨1990, 1, 15⟩⟩
    ∧ ¬ ((runOps (List.replicate 2147483646
            (RepoOp.create "John Doe" ⟨1990, 1, 15⟩))).nextID
          ≤ (runOps (List.replicate 2147483647
            (RepoOp.create "John Doe" ⟨1990, 1, 15⟩))).nextID) := by
  have hbig := creates_foldl_nextID "John Doe" ⟨1990, 1, 15⟩ 2147483647
    initialRepo rfl (by decide)
  have hsmall := creates_foldl_nextID "John Doe" ⟨1990, 1, 15⟩ 2147483646
    initialRepo rfl (by decide)
  have h1 : (runOps (List.replicate 2147483647
      (RepoOp.create "John Doe" ⟨1990, 1, 15⟩))).nextID = -2147483648 := by
    unfold runOps
    rw [hbig.1]
    decide
  have h0 : (runOps (List.replicate 2147483646
      (RepoOp.create "John Doe" ⟨1990, 1, 15⟩))).nextID = 2147483647 := by
    unfold runOps
    rw [hsmall.1]
    decide
  have hsf : (runOps (List.replicate 2147483647
      (RepoOp.create "John Doe" ⟨1990, 1, 15⟩))).shouldFail = false := by
    unfold runOps
    exact hbig.2
  refine ⟨h1, ?_, ?_⟩
  · rw [mockCreateUser, hsf]
    simp only [Bool.false_eq_true, if_false, h1]
  · rw [h0, h1]
    decide

theorem validationMessages_nil_iff (now : Instant) (name dob : String) :
    validationMessages now name dob = [] ↔
      nameFieldError name = none ∧ dobFieldError now dob = none := by
  unfold validationMessages
  cases h1 : nameFieldError name <;> cases h2 : dobFieldError now dob <;> simp

theorem validateStructUpd_eq_none_iff (now : Instant) (req : UpdateUserRequest) :
    validateStructUpd now req = none ↔
      validationMessages now req.name req.dob = [] := by
  unfold validateStructUpd
  cases h : validationMessages now req.name req.dob <;> simp

theorem parse_some_of_dobError_none {now : Instant} {dob : String}
    (h : dobFieldError now dob = none) : ∃ d, parseDate dob = some d := by
  have hfmt := ((dobFieldError_eq_none_iff now dob).mp h).2.1
  unfold validateDateFormat at hfmt
  cases hp : parseDate dob with
  | none => rw [hp] at hfmt; simp at hfmt
  | some d => exact ⟨d, rfl⟩

theorem parse_some_of_validateStruct_none {now : Instant} {req : CreateUserRequest}
    (h : validateStruct now req = none) : ∃ d, parseDate req.dob = some d := by
  have hmsgs := (validateStruct_eq_none_iff now req).mp h
  exact parse_some_of_dobError_none
    ((validationMessages_nil_iff now req.name req.dob).mp hmsgs).2

theorem parse_some_of_validateStructUpd_none {now : Instant} {req : UpdateUserRequest}
    (h : validateStructUpd now req = none) : ∃ d, parseDate req.dob = some d := by
  have hmsgs := (validateStructUpd_eq_none_iff now req).mp h
  exact parse_some_of_dobError_none
    ((validationMessages_nil_iff now req.name req.dob).mp hmsgs).2

/-- Claim C5: when validation fails, the Create and Update handlers return
the 400 response carrying the joined messages BEFORE any persistence call —
the repository state in the result is exactly the input state (no partial
writes). -/
theorem validation_fails_fast (now : Instant) (m : MockRepo)
    (req : CreateUserRequest) (requ : UpdateUserRequest) (id : Int) (e e2 : String) :
    (validateStruct now req = some e →
      createUserHandler now m req = (⟨400, e⟩, m))
    ∧ (validateStructUpd now requ = some e2 →
      updateUserHandler now m id requ = (⟨400, e2⟩, m)) := by
  constructor
  · intro h
    simp [createUserHandler, h]
  · intro h
    simp [updateUserHandler, h]

/-- Witness for C5: a request with an empty name is rejected with status 400
and the fresh repository is returned untouched. -/
theorem validation_fails_fast_witness :
    createUserHandler ⟨⟨2025, 6, 15⟩, 43200⟩ initialRepo ⟨"", "1990-01-15"⟩
      = (⟨400, "Name is required"⟩, initialRepo) :=
  (validation_fails_fast ⟨⟨2025, 6, 15⟩, 43200⟩ initialRepo ⟨"", "1990-01-15"⟩
      ⟨"x", "1990-01-15"⟩ 1 "Name is required" "x").1 (by decide)

/-- Claim C6 (amended): validation failures map to 400 with the joined
messages; GET on a non-existent id maps to 404 "user not found"; but UPDATE
and DELETE on a non-existent id map to 500 (server-error class, messages
"failed to update user" / "failed to delete user") because those handlers do
not distinguish not-found from other persistence errors; a failing store
maps Create to 500. -/
theorem http_error_mapping (now : Instant) (m : MockRepo) (id : Int)
    (req : CreateUserRequest) (requ : UpdateUserRequest) (e : String) :
    (m.shouldFail = false → m.users id = none →
      getUserHandler now m id = ⟨404, "user not found"⟩)
    ∧ (m.shouldFail = false → m.users id = none → validateStructUpd now requ = none →
      (updateUserHandler now m id requ).1 = ⟨500, "failed to update user"⟩)
    ∧ (m.shouldFail = false → m.users id = none →
      (deleteUserHandler m id).1 = ⟨500, "failed to delete user"⟩)
    ∧ (validateStruct now req = some e →
      (createUserHandler now m req).1 = ⟨400, e⟩)
    ∧ (m.shouldFail = true → validateStruct now req = none →
      (createUserHandler now m req).1 = ⟨500, "failed to create user"⟩) := by
  refine ⟨?_, ?_, ?_, ?_, ?_⟩
  · intro hf hu
    simp [getUserHandler, serviceGetUser, mockGetUser, hf, hu]
  · intro hf hu hv
    obtain ⟨d, hd⟩ := parse_some_of_validateStructUpd_none hv
    simp [updateUserHandler, hv, hd, serviceUpdateUser, mockUpdateUser, hf, hu]
  · intro hf hu
    simp [deleteUserHandler, serviceDeleteUser, mockDeleteUser, hf, hu]
  · intro hv
    simp [createUserHandler, hv]
  · intro hf hv
    obtain ⟨d, hd⟩ := parse_some_of_validateStruct_none hv
    simp [createUserHandler, hv, hd, serviceCreateUser, mockCreateUser, hf]

/-- Witness for C6 (amended): GET for id 999 on the fresh repository yields
the 404 client-error response. -/
theorem http_error_mapping_witness :
    getUserHandler ⟨⟨2025, 6, 15⟩, 43200⟩ initialRepo 999
      = ⟨404, "user not found"⟩ :=
  (http_error_mapping ⟨⟨2025, 6, 15⟩, 43200⟩ initialRepo 999
      ⟨"x", "1990-01-15"⟩ ⟨"x", "1990-01-15"⟩ "x").1 rfl rfl

/-- Counterexample to C6 as stated: UPDATE of the non-existent id 999 with a
valid body returns status 500 (server-error class), not the 404 not-found
client-error class the claim requires. -/
theorem http_error_mapping_counterexample :
    (updateUserHandler ⟨⟨2025, 6, 15⟩, 43200⟩ initialRepo 999
        ⟨"John Doe", "1990-05-15"⟩).1 = ⟨500, "failed to update user"⟩
    ∧ (deleteUserHandler initialRepo 999).1 = ⟨500, "failed to delete user"⟩ := by
  constructor
  · rfl
  · rfl

/-- Claim C7: creating a valid (name, dob) and then getting the returned id
round-trips the name and dob unchanged, and the response's age (on both the
create and the get) is exactly the Age Calculator's output for that dob
against the current date. -/
theorem create_get_roundtrip (now : Instant) (m : MockRepo)
    (name dobStr : String) (d : Date)
    (hf : m.shouldFail = false)
    (_hv : validateStruct now ⟨name, dobStr⟩ = none)
    (_hp : parseDate dobStr = some d) :
    (serviceCreateUser now m name d).1
        = Except.ok ⟨m.nextID, name, d, calculateAge d now.date⟩
    ∧ serviceGetUser now (serviceCreateUser now m name d).2 m.nextID
        = Except.ok ⟨m.nextID, name, d, calculateAge d now.date⟩ := by
  have hc : mockCreateUser m name d
      = (Except.ok ⟨m.nextID, name, d⟩,
          { m with
              users := fun i =>
                if i = m.nextID then some ⟨m.nextID, name, d⟩ else m.users i,
              nextID := wrap32 (m.nextID + 1) }) := by
    simp [mockCreateUser, hf]
  constructor
  · simp [serviceCreateUser, hc, toUserResponse]
  · simp [serviceCreateUser, hc, serviceGetUser, mockGetUser, hf, toUserResponse]

/-- Witness for C7: Create("John Doe", 1990-01-15) on the fresh repository
at 2025-06-15 noon, then Get(1), both return the same record with age 35. -/
theorem create_get_roundtrip_witness :
    (serviceCreateUser ⟨⟨2025, 6, 15⟩, 43200⟩ initialRepo "John Doe"
        ⟨1990, 1, 15⟩).1
      = Except.ok ⟨1, "John Doe", ⟨1990, 1, 15⟩,
          calculateAge ⟨1990, 1, 15⟩ ⟨2025, 6, 15⟩⟩ :=
  (create_get_roundtrip ⟨⟨2025, 6, 15⟩, 43200⟩ initialRepo "John Doe"
      "1990-01-15" ⟨1990, 1, 15⟩ rfl (by decide) (by decide)).1

/-- Claim C8: after a successful Delete(id), a Get(id) signals not-found and
a second Delete(id) signals not-found as well — the record is gone and
deletion is not silently idempotent. -/
theorem delete_then_get_not_found (m : MockRepo) (id : Int)
    (hf : m.shouldFail = false)
    (hd : (mockDeleteUser m id).1 = Except.ok ()) :
    mockGetUser (mockDeleteUser m id).2 id = Except.error "user not found"
    ∧ (mockDeleteUser (mockDeleteUser m id).2 id).1
        = Except.error "user not found" := by
  cases hu : m.users id with
  | none =>
    exfalso
    simp [mockDeleteUser, hf, hu] at hd
  | some u =>
    have h2 : (mockDeleteUser m id).2
        = { m with users := fun i => if i = id then none else m.users i } := by
      simp [mockDeleteUser, hf, hu]
    rw [h2]
    constructor
    · simp [mockGetUser, hf]
    · simp [mockDeleteUser, hf]

/-- Witness for C8: deleting id 1 from a singleton store, then getting and
deleting it again, both signal the not-found error. -/
theorem delete_then_get_not_found_witness :
    mockGetUser
        (mockDeleteUser (mockCreateUser initialRepo "John Doe" ⟨1990, 1, 15⟩).2 1).2 1
      = Except.error "user not found"
    ∧ (mockDeleteUser
        (mockDeleteUser (mockCreateUser initialRepo "John Doe" ⟨1990, 1, 15⟩).2 1).2 1).1
      = Except.error "user not found" :=
  delete_then_get_not_found
    (mockCreateUser initialRepo "John Doe" ⟨1990, 1, 15⟩).2 1 rfl rfl

end UserApi
